import Mathlib

set_option maxRecDepth 10000

/-!
# Verification of the tanuki voxel-storage core

A shallow embedding of the storage core of the `tanuki` voxel engine
(palette-compressed subchunks, copy-on-write light maps, the perfect-hash
world map, the voxel world facade, and the stepping cursor), together with
theorems settling the specification claims C1..C10.

Machine integers are modelled as `Nat` (unsigned: `u16`, `u64`/`usize`) or
`Int` (signed: `i32`, `isize`) with explicit `% 2^w` wherever the source
relies on wrapping or on an `as` cast.  Bitwise operations on signed values
are rendered arithmetically: for a two's-complement integer `x`,
`x & (2^k - 1)` is `x % 2^k` (nonnegative remainder) and `x >> k`
(arithmetic shift) is the floor division `x / 2^k`; `x & !511` is
`x - x % 512`.  Word-level bit manipulation inside the palette index
buffers uses genuine `Nat` bitwise operators.

Reads through pointers that may be out of bounds or uninitialized are
modelled with `Option` (`none` = undefined behaviour); operations whose
source can panic or diverge return `Option` as well (`none` = panic).
-/

/-! ## Signed/unsigned scalar helpers -/

/-- Result of `i32` wrapping arithmetic: reduce an integer into the
interval `[-2^31, 2^31)` (two's complement wrap-around). -/
def wrapI32 (x : Int) : Int := (x + 2^31) % 2^32 - 2^31

/-- The `as usize` cast of an `i32`/`isize` value: sign-extend and
reinterpret as an unsigned 64-bit integer. -/
def usizeOfInt (x : Int) : Nat := (x % 2^64).toNat

/-- The `as u32` cast of an `i32` value (bit pattern as a `Nat`). -/
def u32OfInt (x : Int) : Nat := (x % 2^32).toNat

/-- `u64::MAX`. -/
def U64MAX : Nat := 2^64 - 1

/-- 2D signed integer vector (`glam::IVec2` / `bevy_math::IVec2`).
For region origins, `x` is the world X and `y` the world Z coordinate. -/
structure IVec2 where
  x : Int
  y : Int
deriving DecidableEq, Repr

/-- 3D signed integer vector (`glam::IVec3` / `bevy_math::IVec3`). -/
structure IVec3 where
  x : Int
  y : Int
  z : Int
deriving DecidableEq, Repr

/-- Componentwise subtraction of 3D vectors (`pos - region.min`). -/
def IVec3.sub (a b : IVec3) : IVec3 := ⟨a.x - b.x, a.y - b.y, a.z - b.z⟩

/-- The swizzle `pos.xz()`. -/
def IVec3.xz (v : IVec3) : IVec2 := ⟨v.x, v.z⟩

/-- `x & !511` on a two's-complement integer: clear the low 9 bits,
i.e. round down to a multiple of 512. -/
def alignI (x : Int) : Int := x - x % 512

/-- `pos & !511` applied componentwise to an `IVec2`. -/
def alignV2 (v : IVec2) : IVec2 := ⟨alignI v.x, alignI v.y⟩

/-! ## LightMap (`src/lightmap.rs`)

`Light` is two packed 8-bit fields.  A `LightMap` holds a pointer that
either aliases one of the two read-only uniform statics
(`LIGHTMAP_UNIFORM_FULL`, `LIGHTMAP_UNIFORM_NONE`) or an owned heap
buffer of 32768 light values; `is_uniform` records which mode the source
believes it is in. -/

/-- `Light`: 4 bits ambient + 4 bits torch intensity, and an HSL color byte. -/
structure Light where
  intensity : Nat
  hsl_color : Nat
deriving DecidableEq, Repr

/-- `Light::full()`: ambient channel saturated. -/
def Light.full : Light := ⟨0x0F, 0⟩

/-- `Light::none()`: no light. -/
def Light.none : Light := ⟨0, 0⟩

/-- The buffer a `LightMap`'s pointer refers to: one of the two shared
read-only statics, or an owned allocation of 32768 entries. -/
inductive LightBuffer where
  | uniformFull
  | uniformNone
  | owned (data : List Light)
deriving DecidableEq, Repr

/-- Dereference `self.ptr.add(idx)`.  The two statics hold the same value
at every index; owned buffers are 32768 long, so for `idx < 32768` the
`getD` default is never produced. -/
def LightBuffer.read (b : LightBuffer) (idx : Nat) : Light :=
  match b with
  | .uniformFull => Light.full
  | .uniformNone => Light.none
  | .owned a => a.getD idx Light.none

/-- `ptr.copy_from(self.ptr, 32768)`: materialize the currently referenced
buffer as an owned allocation. -/
def LightBuffer.toOwnedCopy : LightBuffer → List Light
  | .uniformFull => List.replicate 32768 Light.full
  | .uniformNone => List.replicate 32768 Light.none
  | .owned a => a

/-- `LightMap`: a pointer (modelled by which buffer it refers to) plus the
`is_uniform` flag. -/
structure LightMap where
  buf : LightBuffer
  is_uniform : Bool
deriving DecidableEq, Repr

/-- `LightMap::uniform_full`. -/
def LightMap.uniform_full : LightMap := ⟨.uniformFull, true⟩

/-- `LightMap::uniform_none`.  The source points this at
`LIGHTMAP_UNIFORM_FULL` (not the NONE static); the model transcribes that
faithfully. -/
def LightMap.uniform_none : LightMap := ⟨.uniformFull, true⟩

/-- `LightMap::get_unchecked`. -/
def LightMap.get_unchecked (m : LightMap) (idx : Nat) : Light :=
  m.buf.read idx

/-- `LightMap::set_unchecked`, returning `(previous value, new map)`.
In the copy-on-write branch the source assigns `self.is_uniform = true`
(not `false`); the model transcribes that faithfully.  The non-uniform
branch writes through the pointer; with `buf` a shared static that write
would be UB, but no constructor ever produces `is_uniform = false`, so
that case is dead code (modelled as a plain write on an owned buffer,
identity otherwise). -/
def LightMap.set_unchecked (m : LightMap) (idx : Nat) (light : Light) :
    Light × LightMap :=
  if m.is_uniform then
    if light = m.buf.read 0 then
      (light, m)
    else
      let a := m.buf.toOwnedCopy
      (a.getD idx Light.none, ⟨.owned (a.set idx light), true⟩)
  else
    match m.buf with
    | .owned a => (a.getD idx Light.none, ⟨.owned (a.set idx light), false⟩)
    | b => (b.read idx, ⟨b, false⟩)

/-! ## PaletteArray (`src/palette.rs`)

One subchunk of 32768 packed voxel-state indices plus the palette and the
open-addressed dedup cache.  `words` is the packed index buffer (64-bit
words); `palette` models the *initialized prefix* of the palette
allocation, so `palette.length` plays the role of `palette_len` and reads
past it (`palette[i]?` = `none`) are reads of uninitialized memory.
`cache` entries are `(key, palette index)` pairs with palette index
`0xFFFF` marking an unused slot.  The statics `BPI_ZERO_WORD` /
`BPI_ZERO_PALETTE` are modelled per instance (`#[0]`); every observable
of a single array is unchanged by this, since the source only ever
reaches those statics through this array's own pointers. -/

structure PaletteArray where
  words : List Nat
  palette : List Nat
  palette_cap : Nat
  cache : List (Nat × Nat)
  cache_size : Nat
  cache_bits : Nat
  threshold : Nat
  random : Nat
  ipu_div : Nat
  bpi_mul : Nat
  ipu_mod : Nat
  bpi_mask : Nat
deriving DecidableEq, Repr

/-- `EMPTY_CACHES[i]`: sixteen slots, all `(u16::MAX, u16::MAX)` except
slot `i`, which maps state 0 to palette index 0. -/
def emptyCaches (i : Nat) : List (Nat × Nat) :=
  (List.replicate 16 (0xFFFF, 0xFFFF)).set i (0, 0)

/-- `words_len(ipu_div) = 32768 / (1 << ipu_div)`. -/
def wordsLen (ipu_div : Nat) : Nat := 32768 / (1 <<< ipu_div)

/-- `PaletteArray::empty(alloc)`.  `random` is the value drawn from the
time-seeded thread RNG, kept as an explicit argument (truncated to u16). -/
def PaletteArray.empty (random : Nat) : PaletteArray where
  words := [0]
  palette := [0]
  palette_cap := 1
  cache := emptyCaches (random % 2^16 &&& 0xF)
  cache_size := 0
  cache_bits := 0xF
  threshold := 11
  random := random % 2^16
  ipu_div := 15    -- Bpi::BPI0
  bpi_mul := 0
  ipu_mod := 0
  bpi_mask := 0

/-- `expand_bpi::<OLD>`: split a word into 32-bit halves and spread each
`OLD`-bit lane into a `2*OLD`-bit lane, returning `(lower, upper)`. -/
def expandBpi (old : Nat) (word : Nat) : Nat × Nat :=
  let st := (List.range (64 / (old * 2))).foldl
    (fun (st : Nat × Nat × Nat × Nat × Nat) _ =>
      let (lower, upper, r1, r2, mask) := st
      (lower <<< old % 2^64, upper <<< old % 2^64,
       r1 ||| (lower &&& mask), r2 ||| (upper &&& mask),
       mask <<< (old * 2) % 2^64))
    (word &&& (2^32 - 1), word >>> 32, 0, 0, 2^old - 1)
  (st.2.2.1, st.2.2.2.1)

/-- The in-place bit expansion loop of `grow_palette`: double the word
buffer (`alloc.grow`; the fresh upper half is uninitialized, but every
slot is written before any read, so it is modelled as zeroes) and expand
each old word `i`, highest first, into words `2i` and `2i+1`. -/
def expandWords (oldLen oldBpiBits : Nat) (words : List Nat) : List Nat :=
  (List.range oldLen).reverse.foldl
    (fun arr i =>
      let lohi := expandBpi oldBpiBits (arr.getD i 0)
      (arr.set (2*i) lohi.1).set (2*i + 1) lohi.2)
    (words ++ List.replicate oldLen 0)

/-- `PaletteArray::grow_palette`.  Returns `none` only on the
`unreachable!("Index Buffer Overflow")` path (expansion past BPI 16). -/
def PaletteArray.grow_palette (p : PaletteArray) : Option PaletteArray :=
  if p.palette_cap = 1 then
    -- initialize palette with cap 16, switch to BPI 4, allocate the
    -- zeroed index buffer of words_len(4) = 2048 words
    some { p with
      palette_cap := 16
      palette := [0]
      ipu_div := 4       -- Bpi::BPI4: ipu = 16
      bpi_mul := 2
      ipu_mod := 15
      bpi_mask := 0xF
      words := List.replicate 2048 0 }
  else
    -- double the palette capacity (the reallocation preserves contents)
    let cap := p.palette_cap * 2
    let p := { p with palette_cap := cap }
    if cap > p.bpi_mask + 1 then   -- max_palette_cap(bpi_mask) = bpi_mask + 1
      if p.bpi_mask = 0xF then
        some { p with
          words := expandWords 2048 4 p.words
          ipu_div := 3    -- Bpi::BPI8: ipu = 8
          bpi_mul := 3
          ipu_mod := 7
          bpi_mask := 0xFF }
      else if p.bpi_mask = 0xFF then
        some { p with
          words := expandWords 4096 8 p.words
          ipu_div := 2    -- Bpi::BPI16: ipu = 4
          bpi_mul := 4
          ipu_mod := 3
          bpi_mask := 0xFFFF }
      else
        Option.none
    else
      some p

/-- `PaletteArray::find_or_insert_in_palette`.  The SIMD-assisted prefix
scan (taken when `palette_len >= 128`) and the linear remainder scan both
return the first palette index whose entry equals `key`, in index order;
the two phases are modelled as one first-match scan. -/
def PaletteArray.find_or_insert_in_palette (p : PaletteArray) (key : Nat) :
    Option (Nat × PaletteArray) :=
  -- initialize cache if empty: a fresh 16-slot allocation, all (0, u16::MAX)
  let p := if p.cache_size = 0 then { p with cache := List.replicate 16 (0, 0xFFFF) } else p
  match p.palette.findIdx? (fun v => v == key) with
  | some i => some (i, p)
  | Option.none =>
    -- search failed; grow palette / index buffer if out of space
    let pGrown := if p.palette.length ≥ p.palette_cap then p.grow_palette else some p
    pGrown.map (fun q => (q.palette.length, { q with palette := q.palette ++ [key] }))

/-- Linear probing for the first unused slot, used by `grow_cache` when
re-inserting old entries.  Fuel bounds the probe walk (the source loop
would diverge if no slot were free). -/
def probeEmpty (arr : List (Nat × Nat)) (bits index : Nat) : Nat → Option Nat
  | 0 => Option.none
  | fuel+1 =>
    match arr[index]? with
    | Option.none => Option.none
    | some e =>
      if e.2 = 0xFFFF then some index
      else probeEmpty arr bits ((index + 1) &&& bits) fuel

/-- `PaletteArray::grow_cache`: double the cache, re-inserting every used
entry by linear probing from `(key ^ random) & new_bits`. -/
def PaletteArray.grow_cache (p : PaletteArray) : Option PaletteArray :=
  let oldSize := p.cache_bits + 1
  let newSize := oldSize * 2
  let newBits := newSize - 1
  let start : Option (List (Nat × Nat)) := some (List.replicate newSize (0, 0xFFFF))
  let rebuilt := (List.range oldSize).foldl
    (fun acc i =>
      acc.bind (fun arr =>
        match p.cache[i]? with
        | Option.none => Option.none
        | some item =>
          if item.2 = 0xFFFF then some arr
          else
            (probeEmpty arr newBits ((item.1 ^^^ p.random) &&& newBits) newSize).map
              (fun j => arr.set j item)))
    start
  rebuilt.map (fun arr =>
    { p with cache := arr, cache_bits := newBits, threshold := newSize - newSize / 4 })

/-- The probe loop of `PaletteArray::search`.  Each iteration first tests
the slot's key for equality (returning its palette index on a match) and
only then tests whether the slot is unused.  Fuel bounds the walk. -/
def PaletteArray.searchGo (p : PaletteArray) (key : Nat) (index : Nat) :
    Nat → Option (Nat × PaletteArray)
  | 0 => Option.none
  | fuel+1 =>
    match p.cache[index]? with
    | Option.none => Option.none
    | some entry =>
      if entry.1 = key then
        some (entry.2, p)
      else if entry.2 = 0xFFFF then
        (p.find_or_insert_in_palette key).bind (fun r =>
          let p2 := { r.2 with
            cache := r.2.cache.set index (key, r.1 % 2^16),
            cache_size := r.2.cache_size + 1 }
          if p2.cache_size > p2.threshold then
            p2.grow_cache.map (fun q => (r.1, q))
          else
            some (r.1, p2))
      else
        p.searchGo key ((index + 1) &&& p.cache_bits) fuel

/-- `PaletteArray::search(key)`: probe from `(key ^ random) & cache_bits`. -/
def PaletteArray.search (p : PaletteArray) (key : Nat) : Option (Nat × PaletteArray) :=
  p.searchGo key ((key ^^^ p.random) &&& p.cache_bits) (p.cache_bits + 2)

/-- `PaletteArray::get`: extract the packed palette index and read the
palette.  `none` models an out-of-bounds / uninitialized read. -/
def PaletteArray.get (p : PaletteArray) (idx : Nat) : Option Nat :=
  (p.words[idx >>> p.ipu_div]?).bind (fun word =>
    let offs := (idx &&& p.ipu_mod) <<< p.bpi_mul
    p.palette[(word >>> offs) &&& p.bpi_mask]?)

/-- `PaletteArray::set`: resolve `val` to a palette index, then clear and
rewrite the lane (`word = (word & !(mask << offs)) | (pidx << offs)`). -/
def PaletteArray.set (p : PaletteArray) (idx val : Nat) : Option PaletteArray :=
  (p.search val).bind (fun r =>
    let p1 := r.2
    match p1.words[idx >>> p1.ipu_div]? with
    | Option.none => Option.none
    | some word =>
      let offs := (idx &&& p1.ipu_mod) <<< p1.bpi_mul
      let cleared := word &&& (U64MAX ^^^ ((p1.bpi_mask <<< offs) % 2^64))
      some { p1 with
        words := p1.words.set (idx >>> p1.ipu_div)
          ((cleared ||| ((r.1 <<< offs) % 2^64)) % 2^64) })

/-- `PaletteArray::replace`: like `set` but XOR-swaps the lane and returns
the palette entry of the old index. -/
def PaletteArray.replace (p : PaletteArray) (idx val : Nat) : Option (Nat × PaletteArray) :=
  (p.search val).bind (fun r =>
    let p1 := r.2
    match p1.words[idx >>> p1.ipu_div]? with
    | Option.none => Option.none
    | some word =>
      let offs := (idx &&& p1.ipu_mod) <<< p1.bpi_mul
      let old := (word >>> offs) &&& p1.bpi_mask
      (p1.palette[old]?).map (fun oldVal =>
        (oldVal, { p1 with
          words := p1.words.set (idx >>> p1.ipu_div)
            ((word ^^^ (((old ^^^ r.1) <<< offs) % 2^64)) % 2^64) })))

/-- Run a list of `set(i, v)` calls in order. -/
def PaletteArray.runSets (p : PaletteArray) : List (Nat × Nat) → Option PaletteArray
  | [] => some p
  | (i, v) :: rest => (p.set i v).bind (fun q => q.runSets rest)

/-! ## Region (`src/region.rs`, variant used by the world facade)

A region owns `256 * (height/32)` palette arrays; `min`/`max` are its
inclusive lower / exclusive upper corner. -/

structure Region where
  min : IVec3
  max : IVec3
  palettes : List PaletteArray
deriving DecidableEq, Repr

/-- `Region::origin()`: the XZ part of `min`. -/
def Region.origin (r : Region) : IVec2 := r.min.xz

/-- `Region::new(min, max)`: `chunk_len = ((max.y - min.y) >> 5) as usize`,
`length = 256 * chunk_len`, all palette arrays created empty.  As in
`PaletteArray.empty`, `random` stands for the thread RNG draws. -/
def Region.new (min max : IVec3) (random : Nat) : Region where
  min := min
  max := max
  palettes := List.replicate (256 * usizeOfInt ((max.y - min.y).fdiv 32)) (PaletteArray.empty random)

/-! ## WorldMap (`src/map.rs`)

`Regions` is a perfect-hash table from region origins to owned region
pointers.  A `Box<Region>` is modelled as a `RegionBox`: an allocation
identity `id` (the pointer) plus the pointed-to `Region` value.  The
dense `regions` vector is the ownership store; a `Bucket` holds the raw
pointer (`ptr` = the id), the key and the dense index.  Dereferencing a
pointer looks its id up in the ownership store; a dangling pointer
(freed box) therefore dereferences to `none`. -/

/-- An owned `Box<Region>`: allocation identity plus contents. -/
structure RegionBox where
  id : Nat
  val : Region
deriving DecidableEq, Repr

/-- `region.origin()` through the box. -/
def RegionBox.origin (rb : RegionBox) : IVec2 := rb.val.origin

/-- Default `RegionBox` used only as a `getD` fallback. -/
def dfltRB : RegionBox := ⟨0, ⟨⟨0, 0, 0⟩, ⟨0, 0, 0⟩, []⟩⟩

/-- `to_key`: upper 32 bits are the X origin, lower 32 bits the Z origin
(`((origin.x as u64) << 32) | (origin.y as u32 as u64)`). -/
def to_key (origin : IVec2) : Nat :=
  ((usizeOfInt origin.x <<< 32) % 2^64) ||| u32OfInt origin.y

/-- A hash bucket: `(region pointer, key, dense index)`. -/
structure Bucket where
  ptr : Nat
  key : Nat
  idx : Nat
deriving DecidableEq, Repr

/-- `Bucket::EMPTY`: key `u64::MAX`, dangling pointer. -/
def Bucket.EMPTY : Bucket := ⟨0, U64MAX, 0⟩

/-- `Bucket::try_get`: the pointer behind the bucket when the key
matches (the source returns `&Region` by dereferencing `ptr`). -/
def Bucket.try_get (b : Bucket) (key : Nat) : Option Nat :=
  if b.key = key then some b.ptr else Option.none

/-- The `Regions` table. -/
structure Regions where
  regions : List RegionBox
  buckets : List Bucket
  shift : Nat
  magic : Nat
  state : Nat
deriving DecidableEq, Repr

/-- `Regions::default()`. -/
def Regions.defaultA : Regions where
  regions := []
  buckets := [Bucket.EMPTY]
  shift := 63
  magic := 0
  state := 0xda3e39cb94b95bdb

/-- `self.buckets[j]` (in-bounds under the table invariant; `getD` with
`EMPTY` stands for the indexing). -/
def bucketAt (bs : List Bucket) (j : Nat) : Bucket :=
  (bs[j]?).getD Bucket.EMPTY

/-- `Regions::hash`: `(magic.wrapping_mul(key)) >> shift`. -/
def hashF (magic shift key : Nat) : Nat :=
  ((magic * key) % 2^64) >>> shift

/-- `Regions::get` up to the final pointer dereference: the raw pointer
stored in the matching bucket, if any. -/
def Regions.getPtr (w : Regions) (origin : IVec2) : Option Nat :=
  (bucketAt w.buckets (hashF w.magic w.shift (to_key origin))).try_get (to_key origin)

/-- Dereference a region pointer against the ownership store. -/
def Regions.deref (w : Regions) (ptr : Nat) : Option RegionBox :=
  w.regions.find? (fun rb => rb.id == ptr)

/-- `Regions::get` / `get_mut`: bucket probe plus pointer dereference. -/
def Regions.get (w : Regions) (origin : IVec2) : Option RegionBox :=
  (w.getPtr origin).bind w.deref

/-- `Regions::has_region`. -/
def Regions.has_region (w : Regions) (origin : IVec2) : Bool :=
  (bucketAt w.buckets (hashF w.magic w.shift (to_key origin))).key == to_key origin

/-- WyRand step used by `rebuild`: updates `state` and derives a magic. -/
def wyrandStep (state : Nat) : Nat × Nat :=
  let p0 : Nat := 0xa0761d6478bd642f
  let p1 : Nat := 0xe7037ed1a0b428db
  let state' := (state + p0) % 2^64
  let r := state' * (state' ^^^ p1)          -- u128 widening multiply
  let magic := ((r >>> 64) ^^^ r) % 2^64
  (state', magic)

/-- One rebuild attempt: hash every region with the candidate magic into
fresh buckets; fail (`none`) on the first occupied bucket.  (The source
keeps a stack of written slots and clears them on failure, which is
equivalent to starting each attempt from all-`EMPTY` buckets.) -/
def tryAssign (regs : List RegionBox) (magic shift size : Nat) : Option (List Bucket) :=
  let start := List.replicate size Bucket.EMPTY
  (List.range regs.length).foldl
    (fun acc i =>
      acc.bind (fun bs =>
        let rb := regs.getD i dfltRB
        let key := to_key rb.origin
        let h := hashF magic shift key
        if (bucketAt bs h).key = U64MAX then
          some (bs.set h ⟨rb.id, key, i⟩)
        else
          Option.none))
    (some start)

/-- The magic-search loop of `rebuild`.  `fuel` counts the remaining
attempts before the `MAX_RETRIES` panic (`none`). -/
def rebuildGo (regs : List RegionBox) (shift size : Nat) :
    Nat → Nat → Option (Nat × Nat × List Bucket)
  | _, 0 => Option.none
  | state, fuel+1 =>
    let sm := wyrandStep state
    match tryAssign regs sm.2 shift size with
    | some bs => some (sm.2, sm.1, bs)
    | Option.none => rebuildGo regs shift size sm.1 fuel

/-- Rust's `usize::next_power_of_two` (for arguments below `2^64`),
written with structural fuel so that it reduces in the kernel. -/
def nextPow2Go (n acc : Nat) : Nat → Nat
  | 0 => acc
  | fuel+1 => if n ≤ acc then acc else nextPow2Go n (acc * 2) fuel

/-- `n.next_power_of_two()`. -/
def nextPow2 (n : Nat) : Nat := nextPow2Go n 1 64

/-- `Regions::rebuild`.  `none` models the panic after `MAX_RETRIES = 1000`
iterations (the source attempts 999 times: the counter is incremented and
checked before each attempt). -/
def Regions.rebuild (w : Regions) : Option Regions :=
  if w.regions.length = 0 then
    some Regions.defaultA
  else if w.regions.length = 1 then
    let rb := w.regions.getD 0 dfltRB
    some { w with
      buckets := [⟨rb.id, to_key rb.origin, 0⟩]
      magic := 0
      shift := 63 }
  else
    let size := nextPow2 (w.regions.length + w.regions.length / 2)
    let shift := 64 - Nat.log2 size
    (rebuildGo w.regions shift size w.state 999).map (fun msb =>
      { w with buckets := msb.2.2, magic := msb.1, state := msb.2.1, shift := shift })

/-- `Regions::insert`.  Replace branch: swap the dense slot and hand back
the old box (the bucket, including its `ptr`, is left untouched).  Empty
branch: occupy the bucket and push.  Conflict: push and rebuild.  The
outer `none` models a panic (dense index out of bounds, or rebuild
exhausting its retries). -/
def Regions.insert (w : Regions) (rb : RegionBox) : Option (Option RegionBox × Regions) :=
  let key := to_key rb.origin
  let h := hashF w.magic w.shift key
  let b := bucketAt w.buckets h
  if b.key = key then
    match w.regions[b.idx]? with
    | Option.none => Option.none
    | some old => some (some old, { w with regions := w.regions.set b.idx rb })
  else if b.key = U64MAX then
    some (Option.none, { w with
      buckets := w.buckets.set h ⟨rb.id, key, w.regions.length⟩
      regions := w.regions ++ [rb] })
  else
    (Regions.rebuild { w with regions := w.regions ++ [rb] }).map
      (fun w' => (Option.none, w'))

/-- `Vec::swap_remove(i)`: return element `i`, move the last element into
its place, shrink by one.  `none` models the panic for `i` out of bounds. -/
def listSwapRemove (l : List RegionBox) (i : Nat) : Option (RegionBox × List RegionBox) :=
  match l[i]? with
  | Option.none => Option.none
  | some x => some (x, (l.set i (l.getD (l.length - 1) dfltRB)).dropLast)

/-- `Regions::remove`: clear the matching bucket, swap-remove the dense
slot, and patch the dense index stored in the bucket of whatever region
was moved from the end.  Never rebuilds. -/
def Regions.remove (w : Regions) (origin : IVec2) : Option (Option RegionBox × Regions) :=
  let key := to_key origin
  let h := hashF w.magic w.shift key
  let b := bucketAt w.buckets h
  if b.key = key then
    match listSwapRemove w.regions b.idx with
    | Option.none => Option.none
    | some ret =>
      let bs := w.buckets.set h Bucket.EMPTY
      let bs' :=
        match ret.2[b.idx]? with
        | Option.none => bs
        | some moved =>
          let h2 := hashF w.magic w.shift (to_key moved.origin)
          bs.set h2 { bucketAt bs h2 with idx := b.idx }
      some (some ret.1, { w with regions := ret.2, buckets := bs' })
  else
    some (Option.none, w)

/-! ## VoxelWorld (`src/world.rs`, `src/voxel.rs`) -/

/-- `VoxelConfig { max_y, min_y }`. -/
structure VoxelConfig where
  max_y : Int
  min_y : Int
deriving DecidableEq, Repr

/-- `VoxelWorld`: config, cached height, region table. -/
structure VoxelWorld where
  config : VoxelConfig
  height : Nat
  regions : Regions
deriving DecidableEq, Repr

/-- `VoxelWorld::new`: panics (`none`) unless `max_y > min_y` and the
height is a multiple of 32.  The subtraction is `i32` arithmetic
(wrapping in release builds) cast to `usize`. -/
def VoxelWorld.new (config : VoxelConfig) : Option VoxelWorld :=
  if config.max_y > config.min_y then
    let height := usizeOfInt (wrapI32 (config.max_y - config.min_y))
    if height % 32 = 0 then
      some { config := config, height := height, regions := Regions.defaultA }
    else
      Option.none
  else
    Option.none

/-- `VoxelWorld::init_region`: the region corners are built with named
fields; the source computes the max corner's `z` from `min.y` (the
config's `min_y`), which this model transcribes verbatim. -/
def VoxelWorld.init_region (w : VoxelWorld) (pos : IVec2) (random : Nat) : Region :=
  let min : IVec3 := { x := alignI pos.x, z := alignI pos.y, y := w.config.min_y }
  let max : IVec3 := { x := min.x + 512, z := min.y + 512, y := w.config.max_y }
  Region.new min max random

/-- Mutation through a region pointer: replace the contents of the
allocation with this id (the dense vector and every bucket keep their
pointers; only the pointed-to value changes). -/
def Regions.updateRegion (w : Regions) (ptr : Nat) (val : Region) : Regions :=
  { w with regions := w.regions.map (fun rb => if rb.id = ptr then { rb with val := val } else rb) }

/-- `VoxelIndex` (`src/voxel.rs`): the resolved region plus the subchunk
and voxel-in-subchunk indices (`VoxelIndexMut` has the same fields). -/
structure VoxelIndex where
  region : RegionBox
  subchunk : Nat
  voxel : Nat
deriving DecidableEq, Repr

/-- `VoxelIndex::of` / `VoxelIndexMut::of`: reject when
`(pos.y.wrapping_sub(min_y)) as usize` reaches the height, look the
region up by the masked origin, then decompose.  The index arithmetic is
on in-range `usize` values (`ox, oz ∈ [0,512)`, `oy ∈ [0,height)`). -/
def VoxelIndex.of (pos : IVec3) (w : VoxelWorld) : Option VoxelIndex :=
  let oy := usizeOfInt (wrapI32 (pos.y - w.config.min_y))
  if oy ≥ w.height then Option.none
  else
    match w.regions.get (alignV2 pos.xz) with
    | Option.none => Option.none
    | some rb =>
      let origin := alignV2 pos.xz
      let ox := usizeOfInt (pos.x - origin.x)
      let oz := usizeOfInt (pos.z - origin.y)
      some { region := rb
             subchunk := (ox >>> 5) ||| ((oz >>> 5) <<< 4) ||| ((oy >>> 5) <<< 8)
             voxel := (oy &&& 31) ||| ((ox &&& 31) <<< 5) ||| ((oz &&& 31) <<< 10) }

/-- `VoxelWorld::get_voxel`: AIR (`some 0`) when out of bounds, else the
palette read at the decomposed location (`none` = UB read). -/
def VoxelWorld.get_voxel (w : VoxelWorld) (pos : IVec3) : Option Nat :=
  match VoxelIndex.of pos w with
  | Option.none => some 0
  | some ix => (ix.region.val.palettes[ix.subchunk]?).bind (fun pal => pal.get ix.voxel)

/-- `VoxelWorld::set_voxel`: `(false, unchanged world)` when out of
bounds; otherwise write through the region pointer. -/
def VoxelWorld.set_voxel (w : VoxelWorld) (pos : IVec3) (voxel : Nat) :
    Option (Bool × VoxelWorld) :=
  match VoxelIndex.of pos w with
  | Option.none => some (false, w)
  | some ix =>
    match ix.region.val.palettes[ix.subchunk]? with
    | Option.none => Option.none
    | some pal =>
      (pal.set ix.voxel voxel).map (fun pal2 =>
        let val2 := { ix.region.val with palettes := ix.region.val.palettes.set ix.subchunk pal2 }
        (true, { w with regions := w.regions.updateRegion ix.region.id val2 }))

/-- `VoxelWorld::replace_voxel`: `none` result component when out of
bounds (the world is untouched); otherwise the old state plus the
updated world. -/
def VoxelWorld.replace_voxel (w : VoxelWorld) (pos : IVec3) (voxel : Nat) :
    Option (Option Nat × VoxelWorld) :=
  match VoxelIndex.of pos w with
  | Option.none => some (Option.none, w)
  | some ix =>
    match ix.region.val.palettes[ix.subchunk]? with
    | Option.none => Option.none
    | some pal =>
      (pal.replace ix.voxel voxel).map (fun r =>
        let val2 := { ix.region.val with palettes := ix.region.val.palettes.set ix.subchunk r.2 }
        (some r.1, { w with regions := w.regions.updateRegion ix.region.id val2 }))

/-! ## Worm — stepping cursor (`src/access/worm.rs`, `src/region/mod.rs`)

The cursor variant of the source uses the `src/region/mod.rs` region
(whose subchunks are `src/region/palette.rs` palette arrays; only their
`empty` constructor and `get` accessor are needed here) and is generic
over any `VoxelRead` reader, modelled as a function
`IVec2 → Option RegionB` (the trait's `get_region_ptr`). -/

/-- The `src/region/palette.rs` palette array, restricted to the fields
its `get` path touches.  As in the other variant, `palette` is the
initialized prefix and out-of-range reads are `none`. -/
structure PaletteArrayB where
  words : List Nat
  palette : List Nat
  ipu_div : Nat
  ipu_mod : Nat
  bpi_mask : Nat
  offsets : List Nat
deriving DecidableEq, Repr

/-- `PaletteArray::empty` (BPI 0 statics). -/
def PaletteArrayB.empty : PaletteArrayB where
  words := [0]
  palette := [0]
  ipu_div := 15     -- Bpi::BPI0
  ipu_mod := 0
  bpi_mask := 0
  offsets := List.replicate 16 0

/-- `PaletteArray::get` (`src/region/palette.rs`): offset table lookup,
word extraction, palette read. -/
def PaletteArrayB.get (p : PaletteArrayB) (idx : Nat) : Option Nat :=
  (p.offsets[idx &&& p.ipu_mod]?).bind (fun offset =>
    (p.words[idx >>> p.ipu_div]?).bind (fun word =>
      p.palette[(word >>> offset) &&& p.bpi_mask]?))

/-- The `src/region/mod.rs` region: bounds plus the subchunk palette
arrays (lightmaps, metadata and chunk descriptors play no part in the
worm claims). -/
structure RegionB where
  min : IVec3
  max : IVec3
  palettes : List PaletteArrayB
deriving DecidableEq, Repr

/-- `to_chunk_index` (`src/region/mod.rs`): `(x >> 5) | ((z >> 5) << 4)`.
Under the documented contract `x, z ∈ [0, 512)` the two fields occupy
disjoint bits, so the OR is addition; `>> 5` is floor division. -/
def to_chunk_index (xz : IVec2) : Int :=
  xz.x.ediv 32 + (xz.y.ediv 32) * 16

/-- `to_subchunk_index`: `to_chunk_index(xz) | ((y >> 5) << 8)` cast to
`usize`. -/
def to_subchunk_index (offs : IVec3) : Nat :=
  usizeOfInt (to_chunk_index offs.xz + (offs.y.ediv 32) * 256)

/-- `to_voxel_index_wrapping`: `(y & 31) | ((x & 31) << 5) | ((z & 31) << 10)`
(`& 31` is the nonnegative remainder mod 32; the fields are disjoint). -/
def to_voxel_index_wrapping (offs : IVec3) : Nat :=
  usizeOfInt (offs.y % 32 + (offs.x % 32) * 32 + (offs.z % 32) * 1024)

/-- The per-direction delta table. -/
structure Deltas where
  voxel_wrap : Int
  voxel_next : Int
  subch_wrap : Int
  subch_next : Int
deriving DecidableEq, Repr

/-- `VOXEL_Y_WRAP_DELTA = SUBCHUNK_WIDTH - 1`. -/
def VOXEL_Y_WRAP_DELTA : Int := 32 - 1

/-- `VOXEL_Y_NEXT_DELTA = 1`. -/
def VOXEL_Y_NEXT_DELTA : Int := 1

/-- `SUBCH_Y_WRAP_DELTA = 0`. -/
def SUBCH_Y_WRAP_DELTA : Int := 0

/-- `SUBCH_Y_NEXT_DELTA = CHUNKS_PER_REGION = 256`. -/
def SUBCH_Y_NEXT_DELTA : Int := 256

/-- `VOXEL_X_WRAP_DELTA = SUBCHUNK_WIDTH^2 - (SUBCHUNK_WIDTH - 1)`. -/
def VOXEL_X_WRAP_DELTA : Int := 32^2 - (32 - 1)

/-- `VOXEL_X_NEXT_DELTA = SUBCHUNK_WIDTH = 32`. -/
def VOXEL_X_NEXT_DELTA : Int := 32

/-- `SUBCH_X_WRAP_DELTA = REGION_WIDTH - 1 = 511`. -/
def SUBCH_X_WRAP_DELTA : Int := 512 - 1

/-- `SUBCH_X_NEXT_DELTA = 1`. -/
def SUBCH_X_NEXT_DELTA : Int := 1

/-- `VOXEL_Z_WRAP_DELTA = SUBCHUNK_WIDTH^3 - (SUBCHUNK_WIDTH^2 - 1)`. -/
def VOXEL_Z_WRAP_DELTA : Int := 32^3 - (32^2 - 1)

/-- `VOXEL_Z_NEXT_DELTA = SUBCHUNK_WIDTH^2 = 1024`. -/
def VOXEL_Z_NEXT_DELTA : Int := 32^2

/-- `SUBCH_Z_WRAP_DELTA = REGION_WIDTH_CHUNKS^2 - (REGION_WIDTH_CHUNKS - 1)`. -/
def SUBCH_Z_WRAP_DELTA : Int := 16^2 - (16 - 1)

/-- `SUBCH_Z_NEXT_DELTA = REGION_WIDTH = 512`. -/
def SUBCH_Z_NEXT_DELTA : Int := 512

/-- `Deltas::UP`. -/
def Deltas.UP : Deltas :=
  ⟨-VOXEL_Y_WRAP_DELTA, VOXEL_Y_NEXT_DELTA, -SUBCH_Y_WRAP_DELTA, SUBCH_Y_NEXT_DELTA⟩

/-- `Deltas::DOWN`. -/
def Deltas.DOWN : Deltas :=
  ⟨VOXEL_Y_WRAP_DELTA, -VOXEL_Y_NEXT_DELTA, SUBCH_Y_WRAP_DELTA, -SUBCH_Y_NEXT_DELTA⟩

/-- `Deltas::EAST`. -/
def Deltas.EAST : Deltas :=
  ⟨-VOXEL_X_WRAP_DELTA, VOXEL_X_NEXT_DELTA, -SUBCH_X_WRAP_DELTA, SUBCH_X_NEXT_DELTA⟩

/-- `Deltas::WEST`. -/
def Deltas.WEST : Deltas :=
  ⟨VOXEL_X_WRAP_DELTA, -VOXEL_X_NEXT_DELTA, SUBCH_X_WRAP_DELTA, -SUBCH_X_NEXT_DELTA⟩

/-- `Deltas::NORTH`. -/
def Deltas.NORTH : Deltas :=
  ⟨-VOXEL_Z_WRAP_DELTA, VOXEL_Z_NEXT_DELTA, -SUBCH_Z_WRAP_DELTA, SUBCH_Z_NEXT_DELTA⟩

/-- `Deltas::SOUTH`. -/
def Deltas.SOUTH : Deltas :=
  ⟨VOXEL_Z_WRAP_DELTA, -VOXEL_Z_NEXT_DELTA, SUBCH_Z_WRAP_DELTA, -SUBCH_Z_NEXT_DELTA⟩

/-- `WormData`: the cached `(region, subchunk index, voxel index,
position)` quadruple.  The borrowed reader lives in the enclosing
`Worm`/`WormMut` value and is passed to each step explicitly here. -/
structure WormData where
  region : RegionB
  subchunk : Nat
  voxel : Nat
  pos : IVec3
deriving DecidableEq, Repr

/-- `WormData::new`: decompose `pos` relative to the region's min corner. -/
def WormData.new (pos : IVec3) (region : RegionB) : WormData where
  region := region
  subchunk := to_subchunk_index (pos.sub region.min)
  voxel := to_voxel_index_wrapping (pos.sub region.min)
  pos := pos

/-- `WormData::next`: apply `voxel_next` when no subchunk boundary is
crossed; on a subchunk edge apply `voxel_wrap` plus `subch_next`, or —
on a region edge — fetch the neighbour region through the reader
(`none` stops the step) and apply `subch_wrap`.  Index updates are
`(as isize + delta) as usize`, i.e. wrap mod `2^64`. -/
def WormData.next (d : WormData) (reader : Option (IVec2 → Option RegionB))
    (pos : IVec3) (is_subchunk_edge is_region_edge : Bool) (deltas : Deltas) :
    Option WormData :=
  if is_subchunk_edge then
    if is_region_edge then
      match reader with
      | Option.none => Option.none
      | some f =>
        match f pos.xz with
        | Option.none => Option.none
        | some newRegion =>
          some { region := newRegion
                 subchunk := usizeOfInt ((d.subchunk : Int) + deltas.subch_wrap)
                 voxel := usizeOfInt ((d.voxel : Int) + deltas.voxel_wrap)
                 pos := pos }
    else
      some { region := d.region
             subchunk := usizeOfInt ((d.subchunk : Int) + deltas.subch_next)
             voxel := usizeOfInt ((d.voxel : Int) + deltas.voxel_wrap)
             pos := pos }
  else
    some { region := d.region
           subchunk := d.subchunk
           voxel := usizeOfInt ((d.voxel : Int) + deltas.voxel_next)
           pos := pos }

/-- Modelled from the spec: `SUBCHUNK_WIDTH_WRAP` is used by
`src/access/worm.rs` but missing from `src/consts.rs`; the spec's edge
rule (§4.6: a subchunk boundary sits at axis offset 0 for negative and
31 for positive steps on the 32-spaced grid) fixes it to
`SUBCHUNK_WIDTH - 1 = 31`. -/
def SUBCHUNK_WIDTH_WRAP : Int := 31

/-- `WormData::up`: Y stepping never consults the reader. -/
def WormData.up (d : WormData) : Option WormData :=
  d.next Option.none { d.pos with y := d.pos.y + 1 }
    (d.pos.y % 32 == SUBCHUNK_WIDTH_WRAP)
    (d.pos.y ≥ d.region.max.y - 1)
    Deltas.UP

/-- `WormData::down`. -/
def WormData.down (d : WormData) : Option WormData :=
  d.next Option.none { d.pos with y := d.pos.y - 1 }
    (d.pos.y % 32 == 0)
    (d.pos.y ≤ d.region.min.y)
    Deltas.DOWN

/-- `WormData::east`. -/
def WormData.east (d : WormData) (f : IVec2 → Option RegionB) : Option WormData :=
  d.next (some f) { d.pos with x := d.pos.x + 1 }
    (d.pos.x % 32 == SUBCHUNK_WIDTH_WRAP)
    (d.pos.x % 512 == 511)
    Deltas.EAST

/-- `WormData::west`. -/
def WormData.west (d : WormData) (f : IVec2 → Option RegionB) : Option WormData :=
  d.next (some f) { d.pos with x := d.pos.x - 1 }
    (d.pos.x % 32 == 0)
    (d.pos.x % 512 == 0)
    Deltas.WEST

/-- `WormData::north`. -/
def WormData.north (d : WormData) (f : IVec2 → Option RegionB) : Option WormData :=
  d.next (some f) { d.pos with z := d.pos.z + 1 }
    (d.pos.z % 32 == SUBCHUNK_WIDTH_WRAP)
    (d.pos.z % 512 == 511)
    Deltas.NORTH

/-- `WormData::south`. -/
def WormData.south (d : WormData) (f : IVec2 → Option RegionB) : Option WormData :=
  d.next (some f) { d.pos with z := d.pos.z - 1 }
    (d.pos.z % 32 == 0)
    (d.pos.z % 512 == 0)
    Deltas.SOUTH

/-- `VoxelDir`. -/
inductive VoxelDir where
  | up | down | east | west | north | south
deriving DecidableEq, Repr

/-- `Worm::new` / `WormMut::new`: resolve the region for `pos.xz`
through the reader, reject positions outside the region's Y range, and
cache the decomposition.  The enclosing `Worm` value is just this data
plus the reader borrow, so the model returns the data. -/
def Worm.new (f : IVec2 → Option RegionB) (pos : IVec3) : Option WormData :=
  match f pos.xz with
  | Option.none => Option.none
  | some r =>
    if pos.y < r.min.y ∨ pos.y ≥ r.max.y then Option.none
    else some (WormData.new pos r)

/-- `Worm::next` / `WormMut::next`: dispatch on the direction. -/
def Worm.next (f : IVec2 → Option RegionB) (d : WormData) : VoxelDir → Option WormData
  | .up => d.up
  | .down => d.down
  | .east => d.east f
  | .west => d.west f
  | .north => d.north f
  | .south => d.south f

/-- The worm's cached get-voxel path: the palette array addressed by the
cached subchunk index, read at the cached voxel index (the access a
`Subchunk` view performs with the worm's indices). -/
def WormData.readVoxel (d : WormData) : Option Nat :=
  (d.region.palettes[d.subchunk]?).bind (fun p => p.get d.voxel)

/-- `Region::get_voxel_unchecked` (`src/region/mod.rs`): decompose the
world position against `min` and read the palette. -/
def RegionB.get_voxel_unchecked (reg : RegionB) (pos : IVec3) : Option Nat :=
  let offs := pos.sub reg.min
  (reg.palettes[to_subchunk_index offs]?).bind (fun p =>
    p.get (to_voxel_index_wrapping offs))

/-- `VoxelRead::get_voxel` (`src/access/mod.rs`): resolve the region,
check the Y range, and read.  Outer `none` = no region / out of range;
inner `Option` tracks UB reads as elsewhere. -/
def readerGetVoxel (f : IVec2 → Option RegionB) (pos : IVec3) : Option (Option Nat) :=
  match f pos.xz with
  | Option.none => Option.none
  | some reg =>
    if pos.y < reg.max.y ∧ pos.y ≥ reg.min.y then
      some (reg.get_voxel_unchecked pos)
    else
      Option.none

/-! ## Concrete instances used by the claim theorems and witnesses -/

/-- Region boxes used by the C2 counterexample: same origin `(0, 0)`,
distinct allocations. -/
def rbA : RegionBox := ⟨1, ⟨⟨0, -64, 0⟩, ⟨512, 320, 512⟩, []⟩⟩

/-- Second allocation with the same origin as `rbA`. -/
def rbB : RegionBox := ⟨2, ⟨⟨0, -64, 0⟩, ⟨512, 320, 512⟩, []⟩⟩

/-- The region and reader of the C3 counterexample: a single region with
origin `(0, 0)`, Y range `[0, 32)`, all subchunks empty. -/
def regionC3 : RegionB := ⟨⟨0, 0, 0⟩, ⟨512, 32, 512⟩, List.replicate 256 PaletteArrayB.empty⟩

/-- Reader resolving only the region at origin `(0, 0)`. -/
def readerC3 : IVec2 → Option RegionB :=
  fun xz => if alignV2 xz = ⟨0, 0⟩ then some regionC3 else Option.none

/-- The region and reader of the C10 witness: origin `(-512, 0)`,
Y range `[-64, 320)`. -/
def regionC10 : RegionB := ⟨⟨-512, -64, 0⟩, ⟨0, 320, 512⟩, List.replicate 256 PaletteArrayB.empty⟩

/-- Reader resolving only the region at origin `(-512, 0)`. -/
def readerC10 : IVec2 → Option RegionB :=
  fun xz => if alignV2 xz = ⟨-512, 0⟩ then some regionC10 else Option.none

/-- The world of the C5 witness: config `{min_y: -64, max_y: 320}`,
no regions. -/
def worldC5 : VoxelWorld := ⟨⟨320, -64⟩, 384, Regions.defaultA⟩

/-! ## The WorldMap table invariant

`Wf` states that the perfect-hash table is consistent: the hash of any
key lands inside `buckets`; every dense slot `i` owns the bucket its key
hashes to (key, pointer and dense index all agree); and every non-empty
bucket points back at a dense slot that carries its key.  Every table
reachable through `default`, successful `insert`s and `remove`s of
aligned origins satisfies it; it is the precondition of the `remove`
specification. -/

/-- Well-formedness of a `Regions` table. -/
def Wf (w : Regions) : Prop :=
  (w.buckets.length = 2^(64 - w.shift) ∨ (w.magic = 0 ∧ w.buckets.length = 1)) ∧
  (∀ i, i < w.regions.length →
    bucketAt w.buckets (hashF w.magic w.shift (to_key (w.regions.getD i dfltRB).origin))
      = ⟨(w.regions.getD i dfltRB).id, to_key (w.regions.getD i dfltRB).origin, i⟩) ∧
  (∀ j, j < w.buckets.length →
    (bucketAt w.buckets j).key ≠ U64MAX →
    (bucketAt w.buckets j).idx < w.regions.length ∧
    to_key ((w.regions.getD (bucketAt w.buckets j).idx dfltRB).origin) = (bucketAt w.buckets j).key ∧
    (bucketAt w.buckets j).ptr = (w.regions.getD (bucketAt w.buckets j).idx dfltRB).id ∧
    hashF w.magic w.shift (bucketAt w.buckets j).key = j)

/-- The region box of the C6 witness (origin `(512, 0)`). -/
def rbW : RegionBox := ⟨7, ⟨⟨512, -64, 0⟩, ⟨1024, 320, 448⟩, []⟩⟩

/-- A well-formed one-region table, as produced by inserting `rbW` into
the default table. -/
def mapC6 : Regions := ⟨[rbW], [⟨7, to_key ⟨512, 0⟩, 0⟩], 63, 0, 0xda3e39cb94b95bdb⟩


/-! ## Helper lemmas -/

/-- A key built by `to_key` from an origin whose Z component is a
multiple of 512 has bit 0 clear, so it cannot be the all-ones empty
sentinel `u64::MAX`. -/
theorem toKey_ne_u64max (o : IVec2) (hz : o.y % 512 = 0) : to_key o ≠ U64MAX := by
  intro hc
  have h0 : (to_key o).testBit 0 = true := by rw [hc]; decide
  rw [to_key, Nat.testBit_lor] at h0
  have hL : ((usizeOfInt o.x <<< 32) % 2^64).testBit 0 = false := by
    rw [Nat.testBit_mod_two_pow, Nat.testBit_shiftLeft]
    simp
  have hparity : u32OfInt o.y % 2 = 0 := by
    unfold u32OfInt
    have h1 : o.y % 2^32 % 512 = o.y % 512 := Int.emod_emod_of_dvd _ (by norm_num)
    have h2 : 0 ≤ o.y % 2^32 := Int.emod_nonneg _ (by norm_num)
    omega
  have hR : (u32OfInt o.y).testBit 0 = false := by
    rw [Nat.testBit_zero]
    simp
    omega
  rw [hL, hR] at h0
  simp at h0

/-- If `pos.y` lies below `min_y` or at/above `min_y + height`, the
`(pos.y.wrapping_sub(min_y)) as usize` bounds check of `VoxelIndex::of`
rejects it, for any `i32` configuration with the world height in range. -/
theorem oy_cast_rejects (min_y y : Int) (height : Nat)
    (hmin1 : -2^31 ≤ min_y) (hmax : min_y + height < 2^31)
    (hy1 : -2^31 ≤ y) (hy2 : y < 2^31)
    (hoob : y < min_y ∨ min_y + height ≤ y) :
    height ≤ usizeOfInt (wrapI32 (y - min_y)) := by
  unfold usizeOfInt wrapI32
  have hw1 : 0 ≤ (y - min_y + 2^31) % 2^32 := Int.emod_nonneg _ (by norm_num)
  have hw2 : (y - min_y + 2^31) % 2^32 < 2^32 := Int.emod_lt_of_pos _ (by norm_num)
  have hq : (y - min_y + 2^31) % 2^32
      = (y - min_y + 2^31) - 2^32 * ((y - min_y + 2^31) / 2^32) := by
    rw [Int.emod_def]
  generalize hd : (y - min_y + 2^31) / 2^32 = q at hq
  generalize hm : (y - min_y + 2^31) % 2^32 = m at hw1 hw2 hq ⊢
  have h641 : 0 ≤ (m - 2^31) % 2^64 := Int.emod_nonneg _ (by norm_num)
  have h642 : (m - 2^31) % 2^64 < 2^64 := Int.emod_lt_of_pos _ (by norm_num)
  have h64q : (m - 2^31) % 2^64 = (m - 2^31) - 2^64 * ((m - 2^31) / 2^64) := by
    rw [Int.emod_def]
  generalize he : (m - 2^31) / 2^64 = e2 at h64q
  generalize hx : (m - 2^31) % 2^64 = x at h641 h642 h64q ⊢
  omega

/-- The hash of any key is a valid bucket index of a well-formed table. -/
theorem wf_hash_lt (w : Regions) (hwf : Wf w) (key : Nat) :
    hashF w.magic w.shift key < w.buckets.length := by
  rcases hwf.1 with h | h
  · rw [h]
    unfold hashF
    rw [Nat.shiftRight_eq_div_pow]
    have hx : (w.magic * key) % 2^64 < 2^64 := Nat.mod_lt _ (by norm_num)
    by_cases hs : w.shift ≤ 64
    · refine Nat.div_lt_of_lt_mul ?_
      have hpow : (2:Nat)^(64 - w.shift) * 2^w.shift = 2^64 := by
        rw [← pow_add]
        congr 1
        omega
      rw [Nat.mul_comm] at hpow
      rw [hpow]
      exact hx
    · push_neg at hs
      have hz : (64 - w.shift) = 0 := by omega
      have hd : (w.magic * key) % 2^64 / 2^w.shift = 0 :=
        Nat.div_eq_of_lt (lt_of_lt_of_le hx (Nat.pow_le_pow_right (by norm_num) (by omega)))
      rw [hz, hd]
      norm_num
  · unfold hashF
    rw [h.1]
    simp [h.2]

/-- In a well-formed table, two dense slots whose keys hash to the same
bucket coincide (each slot's bucket records its index). -/
theorem wf_hash_inj (w : Regions) (hwf : Wf w) {a b : Nat}
    (ha : a < w.regions.length) (hb : b < w.regions.length)
    (h : hashF w.magic w.shift (to_key (w.regions.getD a dfltRB).origin)
       = hashF w.magic w.shift (to_key (w.regions.getD b dfltRB).origin)) : a = b := by
  have h1 := hwf.2.1 a ha
  have h2 := hwf.2.1 b hb
  rw [h] at h1
  have h3 := h1.symm.trans h2
  exact congrArg Bucket.idx h3

/-- Reading a bucket list at the index that was just written. -/
theorem bucketAt_set_self (bs : List Bucket) (j : Nat) (b : Bucket) (h : j < bs.length) :
    bucketAt (bs.set j b) j = b := by
  simp [bucketAt, List.getElem?_set_self h]

/-- Reading a bucket list away from the index that was written. -/
theorem bucketAt_set_ne (bs : List Bucket) {i j : Nat} (b : Bucket) (h : i ≠ j) :
    bucketAt (bs.set i b) j = bucketAt bs j := by
  simp [bucketAt, List.getElem?_set_ne h]

/-- A successful indexed lookup witnesses membership. -/
theorem mem_of_getElem_eq (l : List RegionBox) (i : Nat) (x : RegionBox) (h : l[i]? = some x) :
    x ∈ l := by
  obtain ⟨h1, h2⟩ := List.getElem?_eq_some.mp h
  exact h2 ▸ List.getElem_mem h1


/-- The default (empty) table is well-formed, so `Wf` holds for the
table every world starts from. -/
theorem wf_defaultA : Wf Regions.defaultA := by
  unfold Wf
  refine ⟨Or.inr (by decide), ?_, ?_⟩ <;> decide


/-! ## Claim theorems -/

set_option smartUnfolding false in
/-- C1: the claim that a fresh `PaletteArray` satisfies the set/get
round trip for *every* write sequence fails on the code.  Two concrete
traces (modelled with thread-RNG seed 0, on which neither outcome
depends): (a) `set(0, 65535)` matches an unused `(u16::MAX, u16::MAX)`
sentinel-cache slot — the key-equality test precedes the unused-slot
test — so the write uses palette index 65535, which BPI 0 masks away:
`get(0)` returns 0, not 65535.  (b) after the cache is materialized
(all slots `(0, u16::MAX)`), `set(1, 0)` matches an unused slot's key 0
and again uses palette index 65535; at BPI 4 the `65535 << offs` write
floods four lanes, and `get(1)` reads palette slot 15 — uninitialized
memory (`none`), not the written 0. -/
theorem c1_palette_roundtrip_fails :
  ((PaletteArray.empty 0).runSets [(0, 65535)]).bind (fun p => p.get 0) = some 0 ∧
  (some 0 : Option Nat) ≠ some 65535 ∧
  ((PaletteArray.empty 0).runSets [(0, 1), (1, 0)]).bind (fun p => p.get 1) = Option.none ∧
  (Option.none : Option Nat) ≠ some 0 := by
  refine ⟨by decide, by decide, by decide, by decide⟩

set_option smartUnfolding false in
/-- C4: the claim that a uniform `LightMap` records every `set` fails on
the code: the copy-on-write branch of `set_unchecked` assigns
`is_uniform = true` instead of `false`, so after `set(0, NONE)` on a
uniform-FULL map the next `set(1, NONE)` compares equal to slot 0 of the
now-owned buffer and is dropped as a "uniform no-op": `get(1)` still
returns FULL.  The copy-on-write itself does happen (the buffer after
the first set is an owned allocation, not the shared static). -/
theorem c4_lightmap_cow_drops_write :
  ((LightMap.uniform_full.set_unchecked 0 Light.none).2.set_unchecked 1 Light.none).2.get_unchecked 1
      = Light.full ∧
  Light.full ≠ Light.none ∧
  (LightMap.uniform_full.set_unchecked 0 Light.none).2.is_uniform = true ∧
  (LightMap.uniform_full.set_unchecked 0 Light.none).2.buf ≠ LightBuffer.uniformFull := by
  refine ⟨by decide, by decide, by decide, by decide⟩

set_option smartUnfolding false in
/-- C7: `LightMap::uniform_none` aliases the FULL static, so a freshly
constructed uniform-none map reads `Light::full()` (intensity 0x0F) at
every index, not `Light::none()` — shown at index 0 (the read does not
depend on the index while the map is uniform). -/
theorem c7_uniform_none_reads_full :
  LightMap.uniform_none.get_unchecked 0 = Light.full ∧
  Light.full ≠ Light.none ∧
  LightMap.uniform_none.buf = LightBuffer.uniformFull := by
  refine ⟨by decide, by decide, by decide⟩

set_option smartUnfolding false in
/-- C8: `init_region` builds the max corner with `z: min.y + 512`, i.e.
`config.min_y + 512`, instead of `min.z + 512`.  For the config
`{min_y: -64, max_y: 320}` and `pos = (0, 0)` the region is
`min = (0, -64, 0)`, `max = (512, 320, 448)`: `max.z - min.z = 448`,
not the claimed 512. -/
theorem c8_init_region_z_extent_wrong :
  (VoxelWorld.new ⟨320, -64⟩).map
      (fun w => ((w.init_region ⟨0, 0⟩ 0).min, (w.init_region ⟨0, 0⟩ 0).max))
    = some (⟨0, -64, 0⟩, ⟨512, 320, 448⟩) ∧
  (448 : Int) - 0 ≠ 512 := by
  refine ⟨by decide, by decide⟩





set_option smartUnfolding false in
/-- C2: the claim that after inserting a region over an existing one with
the same origin `get` resolves to the new region fails on the code: the
replace branch of `Regions::insert` swaps the dense slot and returns the
old box but leaves the bucket's `ptr` untouched, so `get` still yields
the old (now freed) pointer.  Inserting box 1 then box 2 at origin
`(0,0)`: insert returns box 1, the dense store holds only box 2, yet
`get((0,0))` resolves pointer 1. -/
theorem c2_insert_replace_stale_bucket :
  ((Regions.defaultA.insert rbA).bind (fun r1 =>
      (r1.2.insert rbB).map (fun r2 =>
        (r2.1.map RegionBox.id, r2.2.getPtr ⟨0, 0⟩, r2.2.regions.map RegionBox.id))))
    = some (some 1, some 1, [2]) ∧
  (1 : Nat) ≠ 2 := by
  refine ⟨by decide, by decide⟩





set_option smartUnfolding false in
/-- C3: the worm does not stay equivalent to direct lookup.  Stepping
East from `(31,0,0)` crosses a subchunk boundary; the delta table's
`VOXEL_X_WRAP_DELTA = 32² - (32-1) = 993` overshoots the correct wrap
(31·32 = 992) by one, so the cursor's voxel index becomes
`992 - 993` wrapped to `2^64 - 1` instead of the decomposition value 0
for `(32,0,0)`.  The worm's cached read path then reads out of bounds
(`none`) while `VoxelRead::get_voxel` at the same position returns AIR. -/
theorem c3_worm_east_wrap_misaddresses :
  ((Worm.new readerC3 ⟨31, 0, 0⟩).bind (fun d => Worm.next readerC3 d .east)).map
      (fun d => (d.pos, d.subchunk, d.voxel))
    = some (⟨32, 0, 0⟩, 1, 2^64 - 1) ∧
  to_subchunk_index ((⟨32, 0, 0⟩ : IVec3).sub regionC3.min) = 1 ∧
  to_voxel_index_wrapping ((⟨32, 0, 0⟩ : IVec3).sub regionC3.min) = 0 ∧
  (2^64 - 1 : Nat) ≠ 0 ∧
  ((Worm.new readerC3 ⟨31, 0, 0⟩).bind (fun d => Worm.next readerC3 d .east)).bind
      WormData.readVoxel
    = Option.none ∧
  readerGetVoxel readerC3 ⟨32, 0, 0⟩ = some (some 0) := by
  refine ⟨by decide, by decide, by decide, by decide, by decide, by decide⟩

set_option smartUnfolding false in
/-- C9: for origins whose components are multiples of 512 the key never
equals the `u64::MAX` empty sentinel, so a lookup can never match an
empty bucket. -/
theorem c9_aligned_key_not_sentinel (x z : Int) (_hx : x % 512 = 0) (hz : z % 512 = 0) :
    to_key ⟨x, z⟩ ≠ U64MAX ∧ Bucket.EMPTY.try_get (to_key ⟨x, z⟩) = Option.none := by
  have h := toKey_ne_u64max ⟨x, z⟩ hz
  refine ⟨h, ?_⟩
  rw [Bucket.try_get]
  rw [if_neg (fun hcc => h hcc.symm)]

/-- Witness for C9 at the aligned origin `(512, -512)`. -/
theorem c9_witness :
    to_key ⟨512, -512⟩ ≠ U64MAX ∧ Bucket.EMPTY.try_get (to_key ⟨512, -512⟩) = Option.none :=
  c9_aligned_key_not_sentinel 512 (-512) (by decide) (by decide)

/-- C10: `Worm::new(reader, pos)` returns `Some` exactly when the reader
resolves a region for `pos.xz` whose Y range contains `pos.y`, and on
success the cursor's fields are `WormData::new`'s decomposition of `pos`
relative to the region's min corner. -/
theorem c10_worm_new_cases (f : IVec2 → Option RegionB) (pos : IVec3) :
    ((Worm.new f pos).isSome ↔ ∃ R, f pos.xz = some R ∧ R.min.y ≤ pos.y ∧ pos.y < R.max.y) ∧
    (∀ R, f pos.xz = some R → R.min.y ≤ pos.y → pos.y < R.max.y →
      Worm.new f pos = some (WormData.new pos R)) := by
  constructor
  · constructor
    · intro h
      cases hf : f pos.xz with
      | none => simp [Worm.new, hf] at h
      | some R =>
        simp only [Worm.new, hf] at h
        by_cases hy : pos.y < R.min.y ∨ pos.y ≥ R.max.y
        · simp [hy] at h
        · push_neg at hy
          exact ⟨R, rfl, hy.1, hy.2⟩
    · rintro ⟨R, hf, h1, h2⟩
      simp only [Worm.new, hf]
      rw [if_neg (by omega)]
      simp
  · intro R hf h1 h2
    simp only [Worm.new, hf]
    rw [if_neg (by omega)]





/-- Witness for C10 at position `(-500, 3, 7)`. -/
theorem c10_witness :
    Worm.new readerC10 ⟨-500, 3, 7⟩ = some (WormData.new ⟨-500, 3, 7⟩ regionC10) :=
  (c10_worm_new_cases readerC10 ⟨-500, 3, 7⟩).2 regionC10 (by decide) (by decide) (by decide)

/-- Out-of-bounds positions never resolve a `VoxelIndex`: either the
`usize`-cast Y check fires, or the region lookup fails. -/
theorem voxelIndexOf_oob_none (w : VoxelWorld) (pos : IVec3)
    (hmin1 : -2^31 ≤ w.config.min_y)
    (hmax : w.config.min_y + w.height < 2^31)
    (hh : (w.height : Int) = w.config.max_y - w.config.min_y)
    (hy1 : -2^31 ≤ pos.y) (hy2 : pos.y < 2^31)
    (hoob : pos.y < w.config.min_y ∨ pos.y ≥ w.config.max_y ∨
        w.regions.getPtr (alignV2 pos.xz) = Option.none) :
    VoxelIndex.of pos w = Option.none := by
  by_cases hge : w.height ≤ usizeOfInt (wrapI32 (pos.y - w.config.min_y))
  · unfold VoxelIndex.of
    rw [if_pos hge]
  · have hreg : w.regions.getPtr (alignV2 pos.xz) = Option.none := by
      rcases hoob with h | h | h
      · exact absurd
          (oy_cast_rejects w.config.min_y pos.y w.height hmin1 hmax hy1 hy2 (Or.inl h)) hge
      · refine absurd
          (oy_cast_rejects w.config.min_y pos.y w.height hmin1 hmax hy1 hy2 (Or.inr ?_)) hge
        omega
      · exact h
    unfold VoxelIndex.of
    rw [if_neg hge]
    simp [Regions.get, hreg]

/-- C5: for any position whose Y lies outside `[min_y, max_y)` or whose
containing region (origin `pos.xz & !511`) is absent, `get_voxel`
returns AIR, `set_voxel` returns `false`, `replace_voxel` returns
`None`, no panic occurs (all results are `some`) and the world is
returned unchanged.  The hypotheses say the configuration is a valid
`i32` configuration with consistent cached height, as `VoxelWorld::new`
guarantees. -/
theorem c5_out_of_bounds_safe (w : VoxelWorld) (pos : IVec3) (v : Nat)
    (hmin1 : -2^31 ≤ w.config.min_y)
    (hmax : w.config.min_y + w.height < 2^31)
    (hh : (w.height : Int) = w.config.max_y - w.config.min_y)
    (hy1 : -2^31 ≤ pos.y) (hy2 : pos.y < 2^31)
    (hoob : pos.y < w.config.min_y ∨ pos.y ≥ w.config.max_y ∨
        w.regions.getPtr (alignV2 pos.xz) = Option.none) :
    w.get_voxel pos = some 0 ∧
    w.set_voxel pos v = some (false, w) ∧
    w.replace_voxel pos v = some (Option.none, w) := by
  have hof := voxelIndexOf_oob_none w pos hmin1 hmax hh hy1 hy2 hoob
  refine ⟨?_, ?_, ?_⟩ <;>
    simp [VoxelWorld.get_voxel, VoxelWorld.set_voxel, VoxelWorld.replace_voxel, hof]



/-- Witness for C5 at the below-range position `(0, -65, 0)`. -/
theorem c5_witness :
    worldC5.get_voxel ⟨0, -65, 0⟩ = some 0 ∧
    worldC5.set_voxel ⟨0, -65, 0⟩ 1 = some (false, worldC5) ∧
    worldC5.replace_voxel ⟨0, -65, 0⟩ 1 = some (Option.none, worldC5) :=
  c5_out_of_bounds_safe worldC5 ⟨0, -65, 0⟩ 1 (by decide) (by decide) (by decide)
    (by decide) (by decide) (Or.inl (by decide))

/-- C6: on a well-formed table (hypothesis `Wf`) and a 512-aligned
origin, `remove(o)` returns exactly the region stored at `o`, after
which `o` no longer resolves while every other region still resolves to
its own pointer and remains in the dense store (the swap-moved tail
region's bucket is re-patched); removing an origin with no region
returns `None` and leaves the table unchanged; and `remove` never
rebuilds: the bucket count, `magic`, `shift` and the WyRand `state` are
all preserved. -/
theorem regions_remove_spec (w : Regions) (o : IVec2) (hwf : Wf w)
    (_hx : o.x % 512 = 0) (hz : o.y % 512 = 0) :
    (∀ i, i < w.regions.length → to_key (w.regions.getD i dfltRB).origin = to_key o →
      ∃ w', w.remove o = some (some (w.regions.getD i dfltRB), w') ∧
        w'.getPtr o = Option.none ∧
        (∀ j, j < w.regions.length → j ≠ i →
          w'.getPtr (w.regions.getD j dfltRB).origin = some (w.regions.getD j dfltRB).id ∧
          (w.regions.getD j dfltRB) ∈ w'.regions) ∧
        w'.regions.length = w.regions.length - 1 ∧
        w'.buckets.length = w.buckets.length ∧
        w'.magic = w.magic ∧ w'.shift = w.shift ∧ w'.state = w.state) ∧
    ((∀ i, i < w.regions.length → to_key (w.regions.getD i dfltRB).origin ≠ to_key o) →
      w.remove o = some (Option.none, w)) := by
  have hkmax : to_key o ≠ U64MAX := toKey_ne_u64max o hz
  have hbl : ∀ key, hashF w.magic w.shift key < w.buckets.length := wf_hash_lt w hwf
  constructor
  · intro i hi hkey
    have hb : bucketAt w.buckets (hashF w.magic w.shift (to_key o))
        = ⟨(w.regions.getD i dfltRB).id, to_key o, i⟩ := by
      have h1 := hwf.2.1 i hi
      rw [hkey] at h1
      exact h1
    have hRget : w.regions[i]? = some (w.regions.getD i dfltRB) := by
      simp [List.getD_eq_getElem?_getD, List.getElem?_eq_getElem hi]
    rcases lt_or_le i (w.regions.length - 1) with hlt | hge
    · -- the removed region is not the last: the moved region's bucket is patched
      have hmv : ((w.regions.set i (w.regions.getD (w.regions.length - 1) dfltRB)).dropLast)[i]?
          = some (w.regions.getD (w.regions.length - 1) dfltRB) := by
        rw [List.getElem?_dropLast]
        rw [if_pos (by simpa using hlt)]
        exact List.getElem?_set_self (by omega)
      have hne : hashF w.magic w.shift (to_key (w.regions.getD (w.regions.length - 1) dfltRB).origin)
          ≠ hashF w.magic w.shift (to_key o) := by
        intro hcc
        have heq : (w.regions.length - 1) = i := by
          refine wf_hash_inj w hwf (by omega) hi ?_
          rw [hkey]
          exact hcc
        omega
      have hpatch : bucketAt (w.buckets.set (hashF w.magic w.shift (to_key o)) Bucket.EMPTY)
          (hashF w.magic w.shift (to_key (w.regions.getD (w.regions.length - 1) dfltRB).origin))
          = ⟨(w.regions.getD (w.regions.length - 1) dfltRB).id,
             to_key (w.regions.getD (w.regions.length - 1) dfltRB).origin,
             w.regions.length - 1⟩ := by
        rw [bucketAt_set_ne _ _ (Ne.symm hne)]
        exact hwf.2.1 (w.regions.length - 1) (by omega)
      refine ⟨{ w with
          regions := (w.regions.set i (w.regions.getD (w.regions.length - 1) dfltRB)).dropLast
          buckets := (w.buckets.set (hashF w.magic w.shift (to_key o)) Bucket.EMPTY).set
            (hashF w.magic w.shift (to_key (w.regions.getD (w.regions.length - 1) dfltRB).origin))
            ⟨(w.regions.getD (w.regions.length - 1) dfltRB).id,
             to_key (w.regions.getD (w.regions.length - 1) dfltRB).origin, i⟩ }, ?_, ?_, ?_, ?_, ?_, rfl, rfl, rfl⟩
      · unfold Regions.remove listSwapRemove
        simp only [hb, hRget, hmv, hpatch]
        rfl
      · -- the removed origin no longer resolves
        simp only [Regions.getPtr]
        rw [bucketAt_set_ne _ _ hne, bucketAt_set_self _ _ _ (hbl _)]
        rw [Bucket.try_get, if_neg (fun hcc => hkmax hcc.symm)]
      · -- every other region still resolves
        intro j hj hji
        rcases lt_or_le j (w.regions.length - 1) with hjlt | hjge
        · have hjne2 : hashF w.magic w.shift (to_key (w.regions.getD j dfltRB).origin)
              ≠ hashF w.magic w.shift (to_key (w.regions.getD (w.regions.length - 1) dfltRB).origin) := by
            intro hcc
            have := wf_hash_inj w hwf hj (by omega) hcc
            omega
          have hjneh : hashF w.magic w.shift (to_key (w.regions.getD j dfltRB).origin)
              ≠ hashF w.magic w.shift (to_key o) := by
            intro hcc
            have := wf_hash_inj w hwf hj hi (by rw [hkey]; exact hcc)
            omega
          constructor
          · simp only [Regions.getPtr]
            rw [bucketAt_set_ne _ _ (Ne.symm hjne2), bucketAt_set_ne _ _ (Ne.symm hjneh)]
            rw [hwf.2.1 j hj]
            rw [Bucket.try_get, if_pos rfl]
          · refine mem_of_getElem_eq _ j _ ?_
            rw [List.getElem?_dropLast, if_pos (by simpa using hjlt)]
            rw [List.getElem?_set_ne (fun hcc => hji hcc.symm)]
            simp [List.getD_eq_getElem?_getD, List.getElem?_eq_getElem (by omega : j < w.regions.length)]
        · have hjeq : j = w.regions.length - 1 := by omega
          subst hjeq
          constructor
          · simp only [Regions.getPtr]
            rw [bucketAt_set_self _ _ _ (by rw [List.length_set]; exact hbl _)]
            rw [Bucket.try_get, if_pos rfl]
          · exact mem_of_getElem_eq _ i _ hmv
      · simp
      · simp
    · -- the removed region is the last: no patch
      have hieq : i = w.regions.length - 1 := by omega
      have hnone : ((w.regions.set i (w.regions.getD (w.regions.length - 1) dfltRB)).dropLast)[i]?
          = (Option.none : Option RegionBox) := by
        apply List.getElem?_eq_none
        simp
        omega
      refine ⟨{ w with
          regions := (w.regions.set i (w.regions.getD (w.regions.length - 1) dfltRB)).dropLast
          buckets := w.buckets.set (hashF w.magic w.shift (to_key o)) Bucket.EMPTY },
          ?_, ?_, ?_, ?_, ?_, rfl, rfl, rfl⟩
      · unfold Regions.remove listSwapRemove
        simp only [hb, hRget, hnone]
        rfl
      · simp only [Regions.getPtr]
        rw [bucketAt_set_self _ _ _ (hbl _)]
        rw [Bucket.try_get, if_neg (fun hcc => hkmax hcc.symm)]
      · intro j hj hji
        have hjlt : j < w.regions.length - 1 := by omega
        have hjneh : hashF w.magic w.shift (to_key (w.regions.getD j dfltRB).origin)
            ≠ hashF w.magic w.shift (to_key o) := by
          intro hcc
          have := wf_hash_inj w hwf hj hi (by rw [hkey]; exact hcc)
          omega
        constructor
        · simp only [Regions.getPtr]
          rw [bucketAt_set_ne _ _ (Ne.symm hjneh)]
          rw [hwf.2.1 j hj]
          rw [Bucket.try_get, if_pos rfl]
        · refine mem_of_getElem_eq _ j _ ?_
          rw [List.getElem?_dropLast, if_pos (by simpa using hjlt)]
          rw [List.getElem?_set_ne (fun hcc => hji hcc.symm)]
          simp [List.getD_eq_getElem?_getD, List.getElem?_eq_getElem (by omega : j < w.regions.length)]
      · simp
      · simp
  · intro habs
    have hkey : (bucketAt w.buckets (hashF w.magic w.shift (to_key o))).key ≠ to_key o := by
      intro hcc
      have hkm : (bucketAt w.buckets (hashF w.magic w.shift (to_key o))).key ≠ U64MAX := by
        rw [hcc]
        exact hkmax
      obtain ⟨hidx, hk2, -, -⟩ := hwf.2.2 _ (hbl (to_key o)) hkm
      exact habs _ hidx (by rw [hk2, hcc])
    unfold Regions.remove
    simp only [if_neg hkey]



set_option smartUnfolding false in
/-- Witness for C6: removing origin `(512, 0)` from the one-region
well-formed table `mapC6`. -/
theorem c6_witness :
    ∃ w', mapC6.remove ⟨512, 0⟩ = some (some (mapC6.regions.getD 0 dfltRB), w') ∧
      w'.getPtr ⟨512, 0⟩ = Option.none ∧
      (∀ j, j < mapC6.regions.length → j ≠ 0 →
        w'.getPtr (mapC6.regions.getD j dfltRB).origin = some (mapC6.regions.getD j dfltRB).id ∧
        (mapC6.regions.getD j dfltRB) ∈ w'.regions) ∧
      w'.regions.length = mapC6.regions.length - 1 ∧
      w'.buckets.length = mapC6.buckets.length ∧
      w'.magic = mapC6.magic ∧ w'.shift = mapC6.shift ∧ w'.state = mapC6.state :=
  (regions_remove_spec mapC6 ⟨512, 0⟩
    (by unfold Wf; refine ⟨Or.inr (by decide), ?_, ?_⟩ <;> decide)
    (by decide) (by decide)).1 0 (by decide) (by decide)
